import Mathlib

deriving instance DecidableEq for Except

/-!
Shallow embedding of the spnpbot repository's rate limiter
(`app/rate_limit.py`), token-refresh wrapper and playback resolver
(`app/user_service.py`), and Spotify client helpers (`app/spotify/api.py`).
Timestamps and durations are rationals; the in-memory request map is a total
function from keys to timestamp lists (a missing key of the Python
`defaultdict` is the empty list).
-/

namespace Spnpbot

/-- A rate-limit key: `(user_id, request_type)` as in `RateLimiter._requests`. -/
abbrev RateKey := Int × String

/-- State of `RateLimiter`: the per-key timestamp lists and `_last_cleanup`. -/
structure LimiterState where
  requests : RateKey → List ℚ
  last_cleanup : ℚ

/-- `RateLimiter._cleanup_interval` (60 seconds). -/
def cleanup_interval : ℚ := 60

/-- Fresh `RateLimiter()` constructed at wall-clock time `t0`. -/
def initState (t0 : ℚ) : LimiterState :=
  ⟨fun _ => [], t0⟩

/-- `RateLimiter._cleanup_old_data`: when at least `_cleanup_interval` has
passed since `_last_cleanup`, drop timestamps `ts ≤ now - 30` from every key
and reset `_last_cleanup`.  Deleting a key whose list became empty is the
same, through `defaultdict` lookups, as storing the empty list. -/
def cleanup_old_data (st : LimiterState) (now : ℚ) : LimiterState :=
  if now - st.last_cleanup < cleanup_interval then st
  else
    ⟨fun k => (st.requests k).filter (fun ts => decide (now - 30 < ts)), now⟩

/-- The `(is_allowed, retry_after_seconds)` pair returned by
`RateLimiter.check_rate_limit`. -/
structure CheckResult where
  allowed : Bool
  retry_after : ℚ
deriving DecidableEq, Repr

/-- Python's `min` on a list of numbers (junk value `0` on the empty list,
where Python would raise `ValueError`; `check_rate_limit` only calls it on a
list of length ≥ limit ≥ 1). -/
def pyMin : List ℚ → ℚ
  | [] => 0
  | x :: xs => xs.foldl min x

/-- The body of `check_rate_limit` after the `_cleanup_old_data()` call:
filter the key's timestamps by the class window, reject (recording nothing)
when `limit` many remain, otherwise append `now` and store the filtered
list back. -/
def check_core (requests : RateKey → List ℚ) (now : ℚ) (key : RateKey)
    (limit : Nat) (window : ℚ) : CheckResult × (RateKey → List ℚ) :=
  let cutoff := now - window
  let recent := (requests key).filter (fun ts => decide (cutoff < ts))
  if limit ≤ recent.length then
    (⟨false, max 0 (pyMin recent + window - now)⟩, requests)
  else
    (⟨true, 0⟩, Function.update requests key (recent ++ [now]))

/-- `RateLimiter.check_rate_limit`: run the periodic cleanup, then decide. -/
def check_rate_limit (st : LimiterState) (now : ℚ) (user_id : Int)
    (request_type : String) (limit : Nat) (window : ℚ) :
    CheckResult × LimiterState :=
  let st1 := cleanup_old_data st now
  let out := check_core st1.requests now (user_id, request_type) limit window
  (out.1, ⟨out.2, st1.last_cleanup⟩)

/-- One recorded call to `check_rate_limit`. -/
structure Req where
  user_id : Int
  request_type : String
  limit : Nat
  window : ℚ
  time : ℚ

/-- The key a request touches. -/
def Req.key (r : Req) : RateKey := (r.user_id, r.request_type)

/-- Run a sequence of `check_rate_limit` calls.  With `cleanup = false` the
periodic `_cleanup_old_data` step is skipped (the comparison model for the
bulk-cleanup invariance claim). -/
def runTrace (cleanup : Bool) (st : LimiterState) : List Req → List CheckResult × LimiterState
  | [] => ([], st)
  | r :: rs =>
    let out :=
      if cleanup then
        check_rate_limit st r.time r.user_id r.request_type r.limit r.window
      else
        let c := check_core st.requests r.time r.key r.limit r.window
        (c.1, (⟨c.2, st.last_cleanup⟩ : LimiterState))
    let rest := runTrace cleanup out.2 rs
    (out.1 :: rest.1, rest.2)

/-- `t ≤ time r₁ ≤ time r₂ ≤ ...`: the call times are nondecreasing and
start no earlier than `t`. -/
def timesMonoFrom (t : ℚ) : List Req → Bool
  | [] => true
  | r :: rs => decide (t ≤ r.time) && timesMonoFrom r.time rs

/-- The sublist of `outs` at the positions of `reqs` whose key is `k`
(the outcomes a single key observes along a trace). -/
def outputsFor (k : RateKey) : List Req → List CheckResult → List CheckResult
  | r :: rs, c :: cs =>
    if r.key = k then c :: outputsFor k rs cs else outputsFor k rs cs
  | _, _ => []

/-! ## Spotify client and user-service embedding (`app/spotify/*`, `app/user_service.py`) -/

/-- Errors raised by the Spotify client / auth layer
(`app/spotify/errors.py`). -/
inductive SpotifyErr where
  | tokenExpired
  | tokenRevoked
  | invalidRefreshToken
  | tokenError (message : String)
  | authError (message : String)
  | apiError (message : String) (status_code : Option Int)
deriving DecidableEq, Repr

/-- Errors that can escape the user-service operations: the service-level
`UserNotLoggedInError` or a propagated Spotify-layer error. -/
inductive OpErr where
  | userNotLoggedIn
  | spotify (e : SpotifyErr)
deriving DecidableEq, Repr

/-- Stored Spotify credential fields of the `User` model row. -/
structure User where
  spotify_access_token : String
  spotify_refresh_token : String
  spotify_expires_at : ℚ
deriving DecidableEq, Repr

/-- Body of a successful `/api/token` refresh (`RefreshTokenResponse`). -/
structure RefreshTokenResponse where
  access_token : String
  token_type : String
  scope : String
  expires_in : Int
deriving DecidableEq, Repr

/-- The token triple a `SpotifyClient` instance is constructed with. -/
structure SpotifyClientState where
  access_token : String
  refresh_token : String
  expires_at : ℚ
deriving DecidableEq, Repr

/-- A track, with the fields the resolver passes through unchanged. -/
structure Track where
  id : String
  name : String
deriving DecidableEq, Repr

/-- An album / artist / playlist entity (`Contextable`): the resolver treats
it opaquely, so only identifying fields are modelled. -/
structure Contextable where
  id : String
  name : String
deriving DecidableEq, Repr

/-- A playback context reference (`Context`): a free-form type tag and a
Spotify URI. -/
structure Context where
  type : String
  uri : String
deriving DecidableEq, Repr

/-- The `item` of a currently-playing response: a track or an episode
(`Item = Track | Episode`; only the distinction matters here). -/
inductive Item where
  | track (t : Track)
  | episode (id : String)
deriving DecidableEq, Repr

/-- `CurrentlyPlayingResponse`. -/
structure CurrentlyPlayingResponse where
  is_playing : Bool
  currently_playing_type : String
  item : Option Item
  context : Option Context
deriving DecidableEq, Repr

/-- `CurrentlyPlayingResponse.track`: the item when it is a `Track`,
otherwise `none`. -/
def CurrentlyPlayingResponse.track (r : CurrentlyPlayingResponse) : Option Track :=
  match r.item with
  | some (.track t) => some t
  | _ => none

/-- One entry of a recently-played response (`PlayedItem`). -/
structure PlayedItem where
  track : Track
  context : Option Context
deriving DecidableEq, Repr

/-- `RecentlyPlayedResponse`. -/
structure RecentlyPlayedResponse where
  items : List PlayedItem
deriving DecidableEq, Repr

/-- Outcomes of the upstream HTTP calls a resolution may make, abstracted as
the value each `SpotifyClient` fetch would produce once the token expiry
check has passed (network errors, 401-expired bodies and parse failures are
all folded into the `Except`/`Option` outcome). -/
structure SpotifyEnv where
  currently_playing : Except SpotifyErr (Option CurrentlyPlayingResponse)
  recently_played : Except SpotifyErr (Option RecentlyPlayedResponse)
  albums : String → Except SpotifyErr (Option Contextable)
  artists : String → Except SpotifyErr (Option Contextable)
  playlists : String → Except SpotifyErr (Option Contextable)

/-- `SpotifyClient._common_get` up to the abstracted network outcome:
`_check_token_expiration` raises `SpotifyTokenExpiredError` when
`expires_at ≤ now`, otherwise the call yields its outcome `net`. -/
def commonGet {α : Type} (client : SpotifyClientState) (now : ℚ)
    (net : Except SpotifyErr (Option α)) : Except SpotifyErr (Option α) :=
  if client.expires_at ≤ now then .error .tokenExpired else net

/-- `context.uri.split(":")[-1]`. -/
def uriId (uri : String) : String :=
  (uri.splitOn ":").getLastD ""

/-- Which detail fetch `get_context_details` performed. -/
inductive FetchEvent where
  | album (id : String)
  | artist (id : String)
  | playlist (id : String)
deriving DecidableEq, Repr

/-- `SpotifyClient.get_context_details`: dispatch on the context type, also
returning the list of detail fetches performed ("collection" and unknown
types perform none and yield `None`). -/
def get_context_details (client : SpotifyClientState) (now : ℚ)
    (env : SpotifyEnv) (context : Context) :
    Except SpotifyErr (Option Contextable) × List FetchEvent :=
  let id := uriId context.uri
  if context.type = "album" then
    (commonGet client now (env.albums id), [.album id])
  else if context.type = "artist" then
    (commonGet client now (env.artists id), [.artist id])
  else if context.type = "playlist" then
    (commonGet client now (env.playlists id), [.playlist id])
  else if context.type = "collection" then
    (.ok none, [])
  else
    (.ok none, [])

/-- The recently-played fallback of `get_playback_data`: await the
recently-played task and take the first item, if any, as the
`(track, context)` pair to surface. -/
def chooseFromRecent (client : SpotifyClientState) (now : ℚ)
    (env : SpotifyEnv) : Except SpotifyErr (Option (Track × Option Context)) :=
  match commonGet client now env.recently_played with
  | .error e => .error e
  | .ok none => .ok none
  | .ok (some rp) =>
    match rp.items with
    | [] => .ok none
    | item :: _ => .ok (some (item.track, item.context))

/-- The branch of `get_playback_data` that picks which status to surface:
the currently-playing track when present (the recently-played task is then
cancelled and never consulted), otherwise the recently-played fallback. -/
def chooseStatus (client : SpotifyClientState) (now : ℚ) (env : SpotifyEnv)
    (statusOpt : Option CurrentlyPlayingResponse) :
    Except SpotifyErr (Option (Track × Option Context)) :=
  match statusOpt with
  | none => chooseFromRecent client now env
  | some s =>
    match s.track with
    | some t => .ok (some (t, s.context))
    | none => chooseFromRecent client now env

/-- The resolution body of `get_playback_data` once a client exists: await
currently-playing, choose the status, then resolve its context (if any)
via `get_context_details`. -/
def resolve_playback (client : SpotifyClientState) (now : ℚ)
    (env : SpotifyEnv) : Except SpotifyErr (Option Track × Option Contextable) :=
  match commonGet client now env.currently_playing with
  | .error e => .error e
  | .ok statusOpt =>
    match chooseStatus client now env statusOpt with
    | .error e => .error e
    | .ok none => .ok (none, none)
    | .ok (some (t, ctxOpt)) =>
      match ctxOpt with
      | none => .ok (some t, none)
      | some c =>
        match (get_context_details client now env c).1 with
        | .error e => .error e
        | .ok details => .ok (some t, details)

/-- `get_user_spotify_client`: `None` exactly when no user row exists,
otherwise a client built from the stored tokens (cleared-out empty tokens
included). -/
def get_user_spotify_client (user : Option User) : Option SpotifyClientState :=
  match user with
  | none => none
  | some u => some ⟨u.spotify_access_token, u.spotify_refresh_token, u.spotify_expires_at⟩

/-- The undecorated body of `get_playback_data`: raise
`UserNotLoggedInError` when no row exists, else resolve. -/
def get_playback_data_core (user : Option User) (now : ℚ)
    (env : SpotifyEnv) : Except OpErr (Option Track × Option Contextable) :=
  match get_user_spotify_client user with
  | none => .error .userNotLoggedIn
  | some client =>
    match resolve_playback client now env with
    | .error e => .error (.spotify e)
    | .ok v => .ok v

/-- The undecorated body of `add_track_to_queue`: raise
`UserNotLoggedInError` when no row exists, else `SpotifyClient.add_to_queue`
(expiry check, then the POST outcome) and return `True`. -/
def add_track_to_queue_core (user : Option User) (now : ℚ)
    (net : Except SpotifyErr Bool) : Except OpErr Bool :=
  match get_user_spotify_client user with
  | none => .error .userNotLoggedIn
  | some client =>
    if client.expires_at ≤ now then .error (.spotify .tokenExpired)
    else
      match net with
      | .error e => .error (.spotify e)
      | .ok _ => .ok true

/-- `refresh_user_spotify_token`: no-op on a missing row; on
`SpotifyInvalidRefreshTokenError` / `SpotifyTokenRevokedError` clear both
tokens, stamp the expiry with the clearing instant and re-raise; any other
refresh failure propagates with the row untouched; on success store the new
access token and expiry.  Returns the outcome and the updated row. -/
def refresh_user_spotify_token (user : Option User)
    (refreshResp : Except SpotifyErr RefreshTokenResponse) (now : ℚ) :
    Except SpotifyErr Unit × Option User :=
  match user with
  | none => (.ok (), none)
  | some u =>
    match refreshResp with
    | .error .invalidRefreshToken =>
      (.error .invalidRefreshToken,
        some { u with spotify_access_token := "", spotify_refresh_token := "",
                      spotify_expires_at := now })
    | .error .tokenRevoked =>
      (.error .tokenRevoked,
        some { u with spotify_access_token := "", spotify_refresh_token := "",
                      spotify_expires_at := now })
    | .error e => (.error e, some u)
    | .ok resp =>
      (.ok (),
        some { u with spotify_access_token := resp.access_token,
                      spotify_expires_at := now + (resp.expires_in : ℚ) })

/-- Result of one invocation of a `with_token_refresh`-wrapped operation:
the surfaced outcome, the stored row afterwards, and how many times the
wrapped operation and the refresh procedure ran. -/
structure WrapOutcome (T : Type) where
  result : Except OpErr T
  user : Option User
  op_calls : Nat
  refresh_calls : Nat

/-- The `with_token_refresh` decorator: run the operation; on
`SpotifyTokenExpiredError` refresh (propagating any refresh failure, with
its token-clearing side effect already applied) and retry exactly once,
surfacing the second outcome unchanged; any other first failure propagates
immediately.  The operation is a function of the attempt index and of the
stored row as the retry sees it after the refresh. -/
def with_token_refresh {T : Type} (op : Nat → Option User → Except OpErr T)
    (user : Option User) (refreshResp : Except SpotifyErr RefreshTokenResponse)
    (now : ℚ) : WrapOutcome T :=
  match op 0 user with
  | .ok v => ⟨.ok v, user, 1, 0⟩
  | .error e =>
    if e = .spotify .tokenExpired then
      match refresh_user_spotify_token user refreshResp now with
      | (.error e2, user2) => ⟨.error (.spotify e2), user2, 1, 1⟩
      | (.ok _, user2) => ⟨op 1 user2, user2, 2, 1⟩
    else
      ⟨.error e, user, 1, 0⟩

/-- The decorated `get_playback_data` (`@with_token_refresh`); on a retry
both fetches run again from scratch, so the environment is indexed by the
attempt number. -/
def get_playback_data (user : Option User) (now : ℚ)
    (envs : Nat → SpotifyEnv)
    (refreshResp : Except SpotifyErr RefreshTokenResponse) :
    WrapOutcome (Option Track × Option Contextable) :=
  with_token_refresh (fun i u => get_playback_data_core u now (envs i))
    user refreshResp now

/-- The decorated `add_track_to_queue` (`@with_token_refresh`). -/
def add_track_to_queue (user : Option User) (now : ℚ)
    (nets : Nat → Except SpotifyErr Bool)
    (refreshResp : Except SpotifyErr RefreshTokenResponse) :
    WrapOutcome Bool :=
  with_token_refresh (fun i u => add_track_to_queue_core u now (nets i))
    user refreshResp now

/-- A concrete track used in concrete instantiations. -/
def wTrack : Track := ⟨"tid", "Title"⟩

/-- A concrete currently-playing response whose item is `wTrack` with no
context. -/
def wStatus : CurrentlyPlayingResponse := ⟨true, "track", some (.track wTrack), none⟩

/-- A concrete environment: currently playing `wStatus`, nothing recently
played, all detail fetches yield nothing. -/
def wEnv : SpotifyEnv :=
  ⟨.ok (some wStatus), .ok none, fun _ => .ok none, fun _ => .ok none, fun _ => .ok none⟩

/-! ## Helper lemmas about timestamp filtering -/

theorem filter_gt_filter_gt (l : List ℚ) {c c2 : ℚ} (h : c2 ≤ c) :
    (l.filter (fun ts => decide (c2 < ts))).filter (fun ts => decide (c < ts))
      = l.filter (fun ts => decide (c < ts)) := by
  rw [List.filter_filter]
  apply List.filter_congr
  intro x _
  by_cases hc : c < x
  · simp [hc, lt_of_le_of_lt h hc]
  · simp [hc]

theorem filter_eq_of_agree {lA lB : List ℚ} {t c : ℚ} (h : t ≤ c)
    (hinv : lA.filter (fun ts => decide (t < ts))
      = lB.filter (fun ts => decide (t < ts))) :
    lA.filter (fun ts => decide (c < ts))
      = lB.filter (fun ts => decide (c < ts)) := by
  rw [← filter_gt_filter_gt lA h, hinv, filter_gt_filter_gt lB h]

theorem filter_gt_eq_self {l : List ℚ} {c : ℚ} (h : ∀ x ∈ l, c < x) :
    l.filter (fun ts => decide (c < ts)) = l := by
  apply List.filter_eq_self.mpr
  intro x hx
  simpa using h x hx

theorem foldl_min_mem : ∀ (xs : List ℚ) (x : ℚ), xs.foldl min x ∈ x :: xs := by
  intro xs
  induction xs with
  | nil => intro x; simp
  | cons y ys ih =>
    intro x
    have h := ih (min x y)
    have hfold : (y :: ys).foldl min x = ys.foldl min (min x y) := rfl
    rw [hfold]
    rcases List.mem_cons.mp h with h1 | h1
    · rw [h1]
      rcases min_choice x y with hm | hm <;> rw [hm] <;> simp
    · exact List.mem_cons_of_mem _ (List.mem_cons_of_mem _ h1)

theorem pyMin_mem {l : List ℚ} (h : l ≠ []) : pyMin l ∈ l := by
  cases l with
  | nil => exact absurd rfl h
  | cons x xs => exact foldl_min_mem xs x

theorem length_filter_lt {l : List ℚ} {c x : ℚ} (hx : x ∈ l) (hxc : x ≤ c) :
    (l.filter (fun ts => decide (c < ts))).length < l.length := by
  apply List.length_filter_lt_length_iff_exists.mpr
  exact ⟨x, hx, by simpa using hxc⟩

theorem cleanup_filter (st : LimiterState) (now : ℚ) {c : ℚ} (h : now - 30 ≤ c)
    (k : RateKey) :
    ((cleanup_old_data st now).requests k).filter (fun ts => decide (c < ts))
      = (st.requests k).filter (fun ts => decide (c < ts)) := by
  unfold cleanup_old_data
  by_cases hf : now - st.last_cleanup < cleanup_interval
  · simp [hf]
  · simp only [hf, if_false]
    exact filter_gt_filter_gt (st.requests k) h

theorem cleanup_keeps {st : LimiterState} {now : ℚ} {k : RateKey}
    (h : ∀ x ∈ st.requests k, now - 30 < x) :
    (cleanup_old_data st now).requests k = st.requests k := by
  unfold cleanup_old_data
  by_cases hf : now - st.last_cleanup < cleanup_interval
  · simp [hf]
  · simp only [hf, if_false]
    exact filter_gt_eq_self h

theorem check_rate_limit_eq (st : LimiterState) (now : ℚ) (uid : Int)
    (rt : String) (limit : Nat) (window : ℚ) :
    check_rate_limit st now uid rt limit window =
      ((check_core (cleanup_old_data st now).requests now (uid, rt) limit window).1,
        ⟨(check_core (cleanup_old_data st now).requests now (uid, rt) limit window).2,
          (cleanup_old_data st now).last_cleanup⟩) := rfl

theorem check_core_reject {requests : RateKey → List ℚ} {now : ℚ}
    {key : RateKey} {limit : Nat} {window : ℚ}
    (h : limit ≤ ((requests key).filter (fun ts => decide (now - window < ts))).length) :
    check_core requests now key limit window =
      (⟨false, max 0 (pyMin ((requests key).filter (fun ts => decide (now - window < ts)))
          + window - now)⟩, requests) := by
  unfold check_core
  simp [h]

theorem check_core_accept {requests : RateKey → List ℚ} {now : ℚ}
    {key : RateKey} {limit : Nat} {window : ℚ}
    (h : ¬ limit ≤ ((requests key).filter (fun ts => decide (now - window < ts))).length) :
    check_core requests now key limit window =
      (⟨true, 0⟩, Function.update requests key
        (((requests key).filter (fun ts => decide (now - window < ts))) ++ [now])) := by
  unfold check_core
  simp [h]

theorem runTrace_true_cons (st : LimiterState) (r : Req) (rs : List Req) :
    runTrace true st (r :: rs) =
      ((check_rate_limit st r.time r.user_id r.request_type r.limit r.window).1
          :: (runTrace true (check_rate_limit st r.time r.user_id r.request_type
                r.limit r.window).2 rs).1,
        (runTrace true (check_rate_limit st r.time r.user_id r.request_type
          r.limit r.window).2 rs).2) := rfl

theorem runTrace_false_cons (st : LimiterState) (r : Req) (rs : List Req) :
    runTrace false st (r :: rs) =
      ((check_core st.requests r.time r.key r.limit r.window).1
          :: (runTrace false ⟨(check_core st.requests r.time r.key r.limit r.window).2,
                st.last_cleanup⟩ rs).1,
        (runTrace false ⟨(check_core st.requests r.time r.key r.limit r.window).2,
          st.last_cleanup⟩ rs).2) := rfl

theorem runTrace_cleanup_agnostic :
    ∀ (reqs : List Req) (stA stB : LimiterState) (t : ℚ),
      (∀ k, (stA.requests k).filter (fun ts => decide (t - 30 < ts))
          = (stB.requests k).filter (fun ts => decide (t - 30 < ts))) →
      (∀ r ∈ reqs, r.window ≤ 30) →
      timesMonoFrom t reqs = true →
      (runTrace true stA reqs).1 = (runTrace false stB reqs).1 := by
  intro reqs
  induction reqs with
  | nil =>
    intro stA stB t _ _ _
    rfl
  | cons r rs ih =>
    intro stA stB t hinv hw hm
    rw [timesMonoFrom, Bool.and_eq_true, decide_eq_true_eq] at hm
    obtain ⟨ht, hm2⟩ := hm
    have hw1 : r.window ≤ 30 := hw r (List.mem_cons_self r rs)
    have hw2 : ∀ q ∈ rs, q.window ≤ 30 := fun q hq => hw q (List.mem_cons_of_mem r hq)
    have hinvNow : ∀ k,
        ((cleanup_old_data stA r.time).requests k).filter
            (fun ts => decide (r.time - 30 < ts))
          = (stB.requests k).filter (fun ts => decide (r.time - 30 < ts)) := by
      intro k
      rw [cleanup_filter stA r.time le_rfl k]
      exact filter_eq_of_agree (by linarith) (hinv k)
    have hcut : r.time - 30 ≤ r.time - r.window := by linarith
    have hrec : ∀ k,
        ((cleanup_old_data stA r.time).requests k).filter
            (fun ts => decide (r.time - r.window < ts))
          = (stB.requests k).filter (fun ts => decide (r.time - r.window < ts)) :=
      fun k => filter_eq_of_agree hcut (hinvNow k)
    rw [runTrace_true_cons, runTrace_false_cons]
    simp only [check_rate_limit_eq]
    have hkey : (r.user_id, r.request_type) = r.key := rfl
    rw [hkey]
    by_cases hdec : r.limit ≤ (((cleanup_old_data stA r.time).requests r.key).filter
        (fun ts => decide (r.time - r.window < ts))).length
    · have hdecB : r.limit ≤ ((stB.requests r.key).filter
          (fun ts => decide (r.time - r.window < ts))).length := by
        rw [← hrec r.key]; exact hdec
      rw [check_core_reject hdec, check_core_reject hdecB]
      simp only [List.cons.injEq]
      constructor
      · rw [hrec r.key]
      · exact ih _ _ r.time hinvNow hw2 hm2
    · have hdecB : ¬ r.limit ≤ ((stB.requests r.key).filter
          (fun ts => decide (r.time - r.window < ts))).length := by
        rw [← hrec r.key]; exact hdec
      rw [check_core_accept hdec, check_core_accept hdecB]
      simp only [List.cons.injEq, true_and]
      apply ih _ _ r.time _ hw2 hm2
      intro k
      dsimp only
      by_cases hk : k = r.key
      · subst hk
        rw [Function.update_same, Function.update_same, hrec r.key]
      · rw [Function.update_noteq hk, Function.update_noteq hk]
        exact hinvNow k

theorem check_core_out_congr {fA fB : RateKey → List ℚ} {key : RateKey}
    (h : fA key = fB key) (now : ℚ) (limit : Nat) (window : ℚ) :
    (check_core fA now key limit window).1 = (check_core fB now key limit window).1 := by
  unfold check_core
  dsimp only
  rw [h]
  by_cases hdec : limit ≤ ((fB key).filter (fun ts => decide (now - window < ts))).length <;>
    simp [hdec]

theorem check_core_upd_congr {fA fB : RateKey → List ℚ} {key : RateKey}
    (h : fA key = fB key) (now : ℚ) (limit : Nat) (window : ℚ) :
    (check_core fA now key limit window).2 key = (check_core fB now key limit window).2 key := by
  unfold check_core
  dsimp only
  rw [h]
  by_cases hdec : limit ≤ ((fB key).filter (fun ts => decide (now - window < ts))).length <;>
    simp [hdec, h]

theorem check_core_apply_ne {f : RateKey → List ℚ} {key k : RateKey}
    (hk : k ≠ key) (now : ℚ) (limit : Nat) (window : ℚ) :
    (check_core f now key limit window).2 k = f k := by
  unfold check_core
  dsimp only
  by_cases hdec : limit ≤ ((f key).filter (fun ts => decide (now - window < ts))).length <;>
    simp [hdec, Function.update_noteq hk]

theorem runTrace_nc_frame :
    ∀ (reqs : List Req) (stA stB : LimiterState) (k : RateKey),
      stA.requests k = stB.requests k →
      outputsFor k reqs (runTrace false stA reqs).1
        = (runTrace false stB (reqs.filter (fun r => decide (r.key = k)))).1 := by
  intro reqs
  induction reqs with
  | nil =>
    intro stA stB k _
    rfl
  | cons r rs ih =>
    intro stA stB k hagree
    by_cases hk : r.key = k
    · subst hk
      have hfil : (r :: rs).filter (fun q => decide (q.key = r.key))
          = r :: rs.filter (fun q => decide (q.key = r.key)) := by
        simp
      rw [runTrace_false_cons, hfil, runTrace_false_cons]
      dsimp only
      rw [outputsFor, if_pos rfl]
      rw [check_core_out_congr hagree r.time r.limit r.window]
      congr 1
      apply ih
      dsimp only
      exact check_core_upd_congr hagree r.time r.limit r.window
    · have hfil : (r :: rs).filter (fun q => decide (q.key = k))
          = rs.filter (fun q => decide (q.key = k)) := by
        simp [hk]
      rw [runTrace_false_cons, hfil]
      dsimp only
      rw [outputsFor, if_neg hk]
      apply ih
      dsimp only
      rw [check_core_apply_ne (fun h => hk h.symm) r.time r.limit r.window]
      exact hagree

theorem timesMonoFrom_weaken (rs : List Req) {t t2 : ℚ} (h : t2 ≤ t)
    (hm : timesMonoFrom t rs = true) : timesMonoFrom t2 rs = true := by
  cases rs with
  | nil => rfl
  | cons r rs =>
    rw [timesMonoFrom, Bool.and_eq_true, decide_eq_true_eq] at hm ⊢
    exact ⟨le_trans h hm.1, hm.2⟩

theorem timesMonoFrom_sublist {rs1 rs2 : List Req} (hs : rs1.Sublist rs2) :
    ∀ t, timesMonoFrom t rs2 = true → timesMonoFrom t rs1 = true := by
  induction hs with
  | slnil =>
    intro t _
    rfl
  | cons a _ ih =>
    intro t hm
    rw [timesMonoFrom, Bool.and_eq_true, decide_eq_true_eq] at hm
    exact timesMonoFrom_weaken _ hm.1 (ih a.time hm.2)
  | cons₂ a _ ih =>
    intro t hm
    rw [timesMonoFrom, Bool.and_eq_true, decide_eq_true_eq] at hm ⊢
    exact ⟨hm.1, ih a.time hm.2⟩

/-- Claim C6: with every window at most 30 seconds (the bulk-cleanup
retention) and wall-clock-monotone call times, the periodic bulk cleanup
never changes the allowed/rejected decision or the `retry_after` value of
any check: the outputs of a trace run with the implemented
`_cleanup_old_data` step equal the outputs of the same trace run with the
cleanup step skipped. -/
theorem C6_bulk_cleanup_invariance (t0 : ℚ) (reqs : List Req)
    (hw : ∀ r ∈ reqs, r.window ≤ 30)
    (hm : timesMonoFrom t0 reqs = true) :
    (runTrace true (initState t0) reqs).1 = (runTrace false (initState t0) reqs).1 :=
  runTrace_cleanup_agnostic reqs _ _ t0 (fun _ => rfl) hw hm

/-- Witness for C6 at a concrete two-request trace. -/
theorem C6_bulk_cleanup_invariance_witness :
    (runTrace true (initState 0)
        [⟨1, "inline", 20, 10, 1⟩, ⟨1, "inline", 20, 10, 2⟩]).1
      = (runTrace false (initState 0)
          [⟨1, "inline", 20, 10, 1⟩, ⟨1, "inline", 20, 10, 2⟩]).1 :=
  C6_bulk_cleanup_invariance 0 _
    (by intro r hr; fin_cases hr <;> norm_num)
    (by norm_num [timesMonoFrom])

/-- Claim C7 (amended): provided every check's window is at most 30 seconds
(the bulk-cleanup retention) and call times are wall-clock monotone, the
outcomes `check_rate_limit` produces for one key are a function only of the
checks previously made for that same key and their times: they equal the
outcomes of running that key's checks alone. -/
theorem C7_key_noninterference (t0 : ℚ) (k : RateKey) (reqs : List Req)
    (hw : ∀ r ∈ reqs, r.window ≤ 30)
    (hm : timesMonoFrom t0 reqs = true) :
    outputsFor k reqs (runTrace true (initState t0) reqs).1
      = (runTrace true (initState t0)
          (reqs.filter (fun r => decide (r.key = k)))).1 := by
  have hsub : (reqs.filter (fun r => decide (r.key = k))).Sublist reqs :=
    List.filter_sublist reqs
  have h1 : (runTrace true (initState t0) reqs).1
      = (runTrace false (initState t0) reqs).1 :=
    runTrace_cleanup_agnostic reqs _ _ t0 (fun _ => rfl) hw hm
  have h2 : (runTrace true (initState t0) (reqs.filter (fun r => decide (r.key = k)))).1
      = (runTrace false (initState t0) (reqs.filter (fun r => decide (r.key = k)))).1 :=
    runTrace_cleanup_agnostic _ _ _ t0 (fun _ => rfl)
      (fun r hr => hw r (hsub.subset hr))
      (timesMonoFrom_sublist hsub t0 hm)
  have h3 := runTrace_nc_frame reqs (initState t0) (initState t0) k rfl
  rw [h1, h3, ← h2]

/-- Counterexample to C7 as stated (with no bound on the window): with
window 100 s, user 2's check at t = 60 runs the bulk cleanup early (keeping
user 1's in-window timestamp 35 and resetting the cleanup clock), so user
1's check at t = 119 sees no cleanup and is rejected; without user 2's
check, the cleanup fires at t = 119, prunes the timestamp, and the same
check is accepted — a different key's checks changed this key's outcome. -/
theorem C7_counterexample :
    outputsFor (1, "command")
        [⟨1, "command", 1, 100, 35⟩, ⟨2, "command", 1, 100, 60⟩,
          ⟨1, "command", 1, 100, 119⟩]
        (runTrace true (initState 0)
          [⟨1, "command", 1, 100, 35⟩, ⟨2, "command", 1, 100, 60⟩,
            ⟨1, "command", 1, 100, 119⟩]).1
      ≠ outputsFor (1, "command")
          [⟨1, "command", 1, 100, 35⟩, ⟨1, "command", 1, 100, 119⟩]
          (runTrace true (initState 0)
            [⟨1, "command", 1, 100, 35⟩, ⟨1, "command", 1, 100, 119⟩]).1 := by
  norm_num [runTrace, check_rate_limit, check_core, cleanup_old_data,
    cleanup_interval, initState, pyMin, outputsFor, Req.key, Function.update]

/-- Witness for the amended C7 at a concrete two-key trace. -/
theorem C7_key_noninterference_witness :
    outputsFor (1, "inline")
        [⟨1, "inline", 20, 10, 1⟩, ⟨2, "inline", 20, 10, 2⟩]
        (runTrace true (initState 0)
          [⟨1, "inline", 20, 10, 1⟩, ⟨2, "inline", 20, 10, 2⟩]).1
      = (runTrace true (initState 0)
          (List.filter (fun r => decide (r.key = (1, "inline")))
            [⟨1, "inline", 20, 10, 1⟩, ⟨2, "inline", 20, 10, 2⟩])).1 :=
  C7_key_noninterference 0 (1, "inline") _
    (by intro r hr; fin_cases hr <;> norm_num)
    (by norm_num [timesMonoFrom])

theorem accept_run (user_id : Int) (request_type : String) (limit : Nat)
    (window : ℚ) (hw : window ≤ 30) (L : ℚ) :
    ∀ (times : List ℚ) (st : LimiterState) (acc : List ℚ),
      st.requests (user_id, request_type) = acc →
      (∀ x ∈ acc ++ times, L - window < x) →
      (∀ x ∈ times, x ≤ L) →
      acc.length + times.length ≤ limit →
      (runTrace true st
          (times.map (fun t => ⟨user_id, request_type, limit, window, t⟩))).1
          = times.map (fun _ => ⟨true, 0⟩)
        ∧ (runTrace true st
            (times.map (fun t => ⟨user_id, request_type, limit, window, t⟩))).2.requests
            (user_id, request_type) = acc ++ times := by
  intro times
  induction times with
  | nil =>
    intro st acc hst _ _ _
    exact ⟨rfl, by simpa using hst⟩
  | cons t ts ih =>
    intro st acc hst hbound hle hlen
    have haccL : ∀ x ∈ acc, L - window < x :=
      fun x hx => hbound x (List.mem_append_left _ hx)
    have htL : t ≤ L := hle t (List.mem_cons_self _ _)
    have hkeep : (cleanup_old_data st t).requests (user_id, request_type) = acc := by
      rw [← hst]
      apply cleanup_keeps
      rw [hst]
      intro x hx
      have := haccL x hx
      linarith
    have hfilter : ((cleanup_old_data st t).requests (user_id, request_type)).filter
        (fun ts2 => decide (t - window < ts2)) = acc := by
      rw [hkeep]
      apply filter_gt_eq_self
      intro x hx
      have := haccL x hx
      linarith
    have hdec : ¬ limit ≤ (((cleanup_old_data st t).requests (user_id, request_type)).filter
        (fun ts2 => decide (t - window < ts2))).length := by
      rw [hfilter]
      rw [List.length_cons] at hlen
      omega
    rw [List.map_cons, runTrace_true_cons]
    dsimp only
    rw [check_rate_limit_eq, check_core_accept hdec]
    dsimp only
    have hstep := ih ⟨Function.update (cleanup_old_data st t).requests
        (user_id, request_type)
        (((cleanup_old_data st t).requests (user_id, request_type)).filter
            (fun ts2 => decide (t - window < ts2)) ++ [t]),
        (cleanup_old_data st t).last_cleanup⟩ (acc ++ [t])
      (by dsimp only; rw [Function.update_same, hfilter])
      (by
        intro x hx
        apply hbound x
        simp only [List.append_assoc, List.singleton_append] at hx
        exact hx)
      (fun x hx => hle x (List.mem_cons_of_mem _ hx))
      (by
        rw [List.length_cons] at hlen
        simp only [List.length_append, List.length_singleton]
        omega)
    obtain ⟨ihr, ihs⟩ := hstep
    refine ⟨?_, ?_⟩
    · rw [ihr, List.map_cons]
    · rw [ihs]
      simp

/-- Claim C1 (amended): for `0 < limit` and `0 < window ≤ 30` (the
bulk-cleanup retention), after exactly `limit` accepted `check_rate_limit`
calls whose timestamps all lie within `window` of a later instant `now`,
the check at `now` is rejected with `retry_after > 0` and records nothing
(the key's stored list is unchanged), and a subsequent check at any
`t2 ≥ earliest accepted timestamp + window` is accepted again. -/
theorem C1_sliding_window (t0 : ℚ) (user_id : Int) (request_type : String)
    (limit : Nat) (window : ℚ) (times : List ℚ) (now t2 : ℚ)
    (hlim : 0 < limit) (hw0 : 0 < window) (hw30 : window ≤ 30)
    (hlen : times.length = limit)
    (hin : ∀ x ∈ times, now - window < x ∧ x ≤ now)
    (ht2 : pyMin times + window ≤ t2) :
    (runTrace true (initState t0)
        (times.map (fun t => ⟨user_id, request_type, limit, window, t⟩))).1
        = times.map (fun _ => ⟨true, 0⟩)
    ∧ (check_rate_limit (runTrace true (initState t0)
          (times.map (fun t => ⟨user_id, request_type, limit, window, t⟩))).2
        now user_id request_type limit window).1.allowed = false
    ∧ 0 < (check_rate_limit (runTrace true (initState t0)
          (times.map (fun t => ⟨user_id, request_type, limit, window, t⟩))).2
        now user_id request_type limit window).1.retry_after
    ∧ (check_rate_limit (runTrace true (initState t0)
          (times.map (fun t => ⟨user_id, request_type, limit, window, t⟩))).2
        now user_id request_type limit window).2.requests (user_id, request_type) = times
    ∧ (check_rate_limit (check_rate_limit (runTrace true (initState t0)
            (times.map (fun t => ⟨user_id, request_type, limit, window, t⟩))).2
          now user_id request_type limit window).2
        t2 user_id request_type limit window).1.allowed = true := by
  have hne : times ≠ [] := by
    intro h
    rw [h] at hlen
    simp at hlen
    omega
  obtain ⟨hrun, hstate⟩ := accept_run user_id request_type limit window hw30 now
    times (initState t0) [] rfl
    (by
      intro x hx
      simp only [List.nil_append] at hx
      exact (hin x hx).1)
    (fun x hx => (hin x hx).2)
    (by simp [hlen])
  simp only [List.nil_append] at hstate
  refine ⟨hrun, ?_⟩
  have hmin_mem : pyMin times ∈ times := pyMin_mem hne
  set R := (runTrace true (initState t0)
    (times.map (fun t => ⟨user_id, request_type, limit, window, t⟩))).2 with hR
  have hkeep1 : (cleanup_old_data R now).requests (user_id, request_type) = times := by
    rw [← hstate]
    apply cleanup_keeps
    rw [hstate]
    intro x hx
    have h1 := (hin x hx).1
    linarith
  have hfilt1 : times.filter (fun ts => decide (now - window < ts)) = times :=
    filter_gt_eq_self (fun x hx => (hin x hx).1)
  have hdec1 : limit ≤ (((cleanup_old_data R now).requests
      (user_id, request_type)).filter (fun ts => decide (now - window < ts))).length := by
    rw [hkeep1, hfilt1, hlen]
  have hrej : check_rate_limit R now user_id request_type limit window
      = (⟨false, max 0 (pyMin times + window - now)⟩, cleanup_old_data R now) := by
    rw [check_rate_limit_eq, check_core_reject hdec1]
    rw [hkeep1, hfilt1]
  rw [hrej]
  refine ⟨rfl, ?_, hkeep1, ?_⟩
  · have h1 := (hin (pyMin times) hmin_mem).1
    have h2 : 0 < pyMin times + window - now := by linarith
    exact lt_max_iff.mpr (Or.inr h2)
  · have hfin : (((cleanup_old_data (cleanup_old_data R now) t2).requests
        (user_id, request_type)).filter (fun ts => decide (t2 - window < ts)))
        = times.filter (fun ts => decide (t2 - window < ts)) := by
      rw [cleanup_filter _ t2 (by linarith) (user_id, request_type), hkeep1]
    have hdec2 : ¬ limit ≤ (((cleanup_old_data (cleanup_old_data R now) t2).requests
        (user_id, request_type)).filter (fun ts => decide (t2 - window < ts))).length := by
      rw [hfin]
      have hlt : (times.filter (fun ts => decide (t2 - window < ts))).length < times.length :=
        length_filter_lt hmin_mem (by linarith)
      rw [hlen] at hlt
      omega
    rw [check_rate_limit_eq, check_core_accept hdec2]

/-- Counterexample to C1 as stated (with windows unrestricted): with
`limit = 1`, `window = 100`, a limiter constructed at time 0 accepts a
check at t = 0; the next check at t = 61 is still inside the window
(61 < 0 + 100) so the claim requires a rejection, but the periodic bulk
cleanup (firing because 61 − 0 ≥ 60) drops the timestamp 0 (older than the
30-second retention) and the check is accepted. -/
theorem C1_counterexample :
    (check_rate_limit (initState 0) 0 1 "command" 1 100).1.allowed = true
    ∧ (check_rate_limit (check_rate_limit (initState 0) 0 1 "command" 1 100).2
        61 1 "command" 1 100).1.allowed = true := by
  norm_num [check_rate_limit, cleanup_old_data, check_core, initState,
    cleanup_interval, pyMin, Function.update]

/-- Witness for the amended C1: limit 2, window 10, accepted checks at
t = 0 and t = 1, rejected at t = 5, accepted again at t = 10. -/
theorem C1_sliding_window_witness :
    (check_rate_limit (check_rate_limit (runTrace true (initState 0)
          (List.map (fun t => ⟨1, "inline", 2, 10, t⟩) [0, 1])).2
        5 1 "inline" 2 10).2 10 1 "inline" 2 10).1.allowed = true :=
  (C1_sliding_window 0 1 "inline" 2 10 [0, 1] 5 10 (by norm_num) (by norm_num)
    (by norm_num) (by norm_num)
    (by intro x hx; fin_cases hx <;> norm_num)
    (by norm_num [pyMin])).2.2.2.2

/-- Claim C10: a rejected check stores nothing — afterwards every key's
list is a (possibly cleanup-pruned) sublist of what it was; keys other
than the checked one are never extended; and an accepted check extends
exactly its own key by appending `now` to a retained sublist. -/
theorem C10_reject_frame (st : LimiterState) (now : ℚ) (user_id : Int)
    (request_type : String) (limit : Nat) (window : ℚ) :
    ((check_rate_limit st now user_id request_type limit window).1.allowed = false →
      ∀ k, ((check_rate_limit st now user_id request_type limit window).2.requests k).Sublist
        (st.requests k))
    ∧ (∀ k, k ≠ (user_id, request_type) →
        ((check_rate_limit st now user_id request_type limit window).2.requests k).Sublist
          (st.requests k))
    ∧ ((check_rate_limit st now user_id request_type limit window).1.allowed = true →
        ∃ pre, pre.Sublist (st.requests (user_id, request_type))
          ∧ (check_rate_limit st now user_id request_type limit window).2.requests
              (user_id, request_type) = pre ++ [now]) := by
  have hcl : ∀ k, ((cleanup_old_data st now).requests k).Sublist (st.requests k) := by
    intro k
    unfold cleanup_old_data
    by_cases hf : now - st.last_cleanup < cleanup_interval
    · simp [hf]
    · simp only [hf, if_false]
      exact List.filter_sublist _
  rw [check_rate_limit_eq]
  by_cases hdec : limit ≤ (((cleanup_old_data st now).requests (user_id, request_type)).filter
      (fun ts => decide (now - window < ts))).length
  · rw [check_core_reject hdec]
    refine ⟨fun _ k => hcl k, fun k _ => hcl k, fun h => absurd h (by simp)⟩
  · rw [check_core_accept hdec]
    refine ⟨fun h => absurd h (by simp), ?_, ?_⟩
    · intro k hk
      dsimp only
      rw [Function.update_noteq hk]
      exact hcl k
    · intro _
      refine ⟨((cleanup_old_data st now).requests (user_id, request_type)).filter
          (fun ts => decide (now - window < ts)), ?_, ?_⟩
      · exact (List.filter_sublist _).trans (hcl (user_id, request_type))
      · dsimp only
        rw [Function.update_same]

/-- Witness for C10: a check on one key leaves a different key's (empty)
list a sublist of itself. -/
theorem C10_reject_frame_witness :
    ((check_rate_limit (initState 0) 0 1 "command" 30 30).2.requests (2, "inline")).Sublist
      ((initState 0).requests (2, "inline")) :=
  (C10_reject_frame (initState 0) 0 1 "command" 30 30).2.1 (2, "inline") (by decide)

/-! ## Token-refresh wrapper claims -/

/-- Claim C2: `with_token_refresh` — (1) an operation that fails with
`TokenExpired` once and then succeeds yields the success, with the refresh
procedure run exactly once and the operation run twice; (2) an operation
that fails with `TokenExpired` on every call is retried exactly once after
one refresh and its second failure propagates unchanged; (3) in every
invocation the operation runs at most twice and the refresh at most once;
(4) a first failure that is not `TokenExpired` propagates immediately with
no refresh. -/
theorem C2_token_refresh_retry :
    (∀ (T : Type) (op : Nat → Option User → Except OpErr T) (user : Option User)
        (refreshResp : Except SpotifyErr RefreshTokenResponse) (now : ℚ) (v : T),
      op 0 user = .error (.spotify .tokenExpired) →
      (refresh_user_spotify_token user refreshResp now).1 = .ok () →
      op 1 (refresh_user_spotify_token user refreshResp now).2 = .ok v →
      (with_token_refresh op user refreshResp now).result = .ok v
        ∧ (with_token_refresh op user refreshResp now).refresh_calls = 1
        ∧ (with_token_refresh op user refreshResp now).op_calls = 2)
    ∧ (∀ (T : Type) (op : Nat → Option User → Except OpErr T) (user : Option User)
        (refreshResp : Except SpotifyErr RefreshTokenResponse) (now : ℚ) (e : OpErr),
      op 0 user = .error (.spotify .tokenExpired) →
      (refresh_user_spotify_token user refreshResp now).1 = .ok () →
      op 1 (refresh_user_spotify_token user refreshResp now).2 = .error e →
      (with_token_refresh op user refreshResp now).result = .error e
        ∧ (with_token_refresh op user refreshResp now).refresh_calls = 1
        ∧ (with_token_refresh op user refreshResp now).op_calls = 2)
    ∧ (∀ (T : Type) (op : Nat → Option User → Except OpErr T) (user : Option User)
        (refreshResp : Except SpotifyErr RefreshTokenResponse) (now : ℚ),
      (with_token_refresh op user refreshResp now).op_calls ≤ 2
        ∧ (with_token_refresh op user refreshResp now).refresh_calls ≤ 1)
    ∧ (∀ (T : Type) (op : Nat → Option User → Except OpErr T) (user : Option User)
        (refreshResp : Except SpotifyErr RefreshTokenResponse) (now : ℚ) (e : OpErr),
      e ≠ .spotify .tokenExpired →
      op 0 user = .error e →
      (with_token_refresh op user refreshResp now).result = .error e
        ∧ (with_token_refresh op user refreshResp now).refresh_calls = 0
        ∧ (with_token_refresh op user refreshResp now).op_calls = 1) := by
  refine ⟨?_, ?_, ?_, ?_⟩
  · intro T op user refreshResp now v h0 h1 h2
    rcases h3 : refresh_user_spotify_token user refreshResp now with ⟨r, u2⟩
    rw [h3] at h1 h2
    dsimp only at h1 h2
    subst h1
    simp [with_token_refresh, h0, h3, h2]
  · intro T op user refreshResp now e h0 h1 h2
    rcases h3 : refresh_user_spotify_token user refreshResp now with ⟨r, u2⟩
    rw [h3] at h1 h2
    dsimp only at h1 h2
    subst h1
    simp [with_token_refresh, h0, h3, h2]
  · intro T op user refreshResp now
    unfold with_token_refresh
    cases h0 : op 0 user with
    | ok v => simp
    | error e =>
      by_cases he : e = .spotify .tokenExpired
      · subst he
        simp only [if_pos rfl]
        rcases h3 : refresh_user_spotify_token user refreshResp now with ⟨r, u2⟩
        cases r <;> simp
      · simp [he]
  · intro T op user refreshResp now e he h0
    simp [with_token_refresh, h0, he]

/-- Witness for C2 (the fail-once-then-succeed branch) at a concrete
operation. -/
theorem C2_token_refresh_retry_witness :
    (with_token_refresh
          (fun i _ => if i = 0 then Except.error (OpErr.spotify .tokenExpired)
            else Except.ok (42 : Nat))
          none (.ok ⟨"tok", "Bearer", "sc", 3600⟩) 0).result = .ok 42
      ∧ (with_token_refresh
          (fun i _ => if i = 0 then Except.error (OpErr.spotify .tokenExpired)
            else Except.ok (42 : Nat))
          none (.ok ⟨"tok", "Bearer", "sc", 3600⟩) 0).refresh_calls = 1
      ∧ (with_token_refresh
          (fun i _ => if i = 0 then Except.error (OpErr.spotify .tokenExpired)
            else Except.ok (42 : Nat))
          none (.ok ⟨"tok", "Bearer", "sc", 3600⟩) 0).op_calls = 2 :=
  C2_token_refresh_retry.1 Nat
    (fun i _ => if i = 0 then Except.error (OpErr.spotify .tokenExpired)
      else Except.ok (42 : Nat))
    none (.ok ⟨"tok", "Bearer", "sc", 3600⟩) 0 42 rfl rfl rfl

/-- Claim C4: when the first call fails with `TokenExpired` and the refresh
fails with `TokenRevoked` (or `InvalidRefreshToken`), the wrapper
propagates that same exception, the stored credential's access and refresh
tokens are both empty afterwards, and the wrapped operation is not
retried. -/
theorem C4_terminal_refresh_failure (T : Type) (op : Nat → Option User → Except OpErr T)
    (u : User) (e : SpotifyErr) (now : ℚ)
    (he : e = .tokenRevoked ∨ e = .invalidRefreshToken)
    (h0 : op 0 (some u) = .error (.spotify .tokenExpired)) :
    (with_token_refresh op (some u) (.error e) now).result = .error (.spotify e)
    ∧ (∃ u2, (with_token_refresh op (some u) (.error e) now).user = some u2
        ∧ u2.spotify_access_token = "" ∧ u2.spotify_refresh_token = ""
        ∧ u2.spotify_expires_at = now)
    ∧ (with_token_refresh op (some u) (.error e) now).op_calls = 1
    ∧ (with_token_refresh op (some u) (.error e) now).refresh_calls = 1 := by
  rcases he with he | he <;> subst he <;>
    exact ⟨by simp [with_token_refresh, h0, refresh_user_spotify_token],
      ⟨⟨"", "", now⟩, by simp [with_token_refresh, h0, refresh_user_spotify_token],
        rfl, rfl, rfl⟩,
      by simp [with_token_refresh, h0, refresh_user_spotify_token],
      by simp [with_token_refresh, h0, refresh_user_spotify_token]⟩

/-- Witness for C4 at a concrete credential and a concrete
always-expired operation. -/
theorem C4_terminal_refresh_failure_witness :
    (with_token_refresh
        (fun _ _ => (Except.error (OpErr.spotify .tokenExpired) : Except OpErr Nat))
        (some ⟨"acc", "ref", 100⟩) (.error .tokenRevoked) 5).result
      = .error (.spotify .tokenRevoked)
    ∧ (∃ u2, (with_token_refresh
          (fun _ _ => (Except.error (OpErr.spotify .tokenExpired) : Except OpErr Nat))
          (some ⟨"acc", "ref", 100⟩) (.error .tokenRevoked) 5).user = some u2
        ∧ u2.spotify_access_token = "" ∧ u2.spotify_refresh_token = ""
        ∧ u2.spotify_expires_at = 5)
    ∧ (with_token_refresh
        (fun _ _ => (Except.error (OpErr.spotify .tokenExpired) : Except OpErr Nat))
        (some ⟨"acc", "ref", 100⟩) (.error .tokenRevoked) 5).op_calls = 1
    ∧ (with_token_refresh
        (fun _ _ => (Except.error (OpErr.spotify .tokenExpired) : Except OpErr Nat))
        (some ⟨"acc", "ref", 100⟩) (.error .tokenRevoked) 5).refresh_calls = 1 :=
  C4_terminal_refresh_failure Nat
    (fun _ _ => (Except.error (OpErr.spotify .tokenExpired) : Except OpErr Nat))
    ⟨"acc", "ref", 100⟩ .tokenRevoked 5 (Or.inl rfl) rfl

/-! ## Playback resolver claims -/

/-- Claim C3 (amended): for a user with a valid (unexpired) credential, if
currently-playing yields nothing (or a non-track item) and recently-played
yields exactly one item carrying no context, `get_playback_data` returns
that item's track with no context. -/
theorem C3_recently_played_fallback (u : User) (now : ℚ) (envs : Nat → SpotifyEnv)
    (refreshResp : Except SpotifyErr RefreshTokenResponse) (R : Track)
    (hv : now < u.spotify_expires_at)
    (hc : (envs 0).currently_playing = .ok none
      ∨ ∃ s, (envs 0).currently_playing = .ok (some s) ∧ s.track = none)
    (hr : (envs 0).recently_played = .ok (some ⟨[⟨R, none⟩]⟩)) :
    (get_playback_data (some u) now envs refreshResp).result = .ok (some R, none) := by
  have hval : ¬ (u.spotify_expires_at ≤ now) := not_le.mpr hv
  have hcore : get_playback_data_core (some u) now (envs 0) = .ok (some R, none) := by
    rcases hc with hc | ⟨s, hc, hs⟩
    · simp [get_playback_data_core, get_user_spotify_client, resolve_playback,
        commonGet, chooseStatus, chooseFromRecent, hc, hr, hval]
    · simp [get_playback_data_core, get_user_spotify_client, resolve_playback,
        commonGet, chooseStatus, chooseFromRecent, hc, hr, hval, hs]
  simp [get_playback_data, with_token_refresh, hcore]

/-- Counterexample to C3 as stated: when the single recently-played item
carries an album context, the resolver resolves that context, so the
result's context is the fetched album, not absent. -/
theorem C3_counterexample :
    (get_playback_data (some ⟨"at", "rt", 1⟩) 0
        (fun _ => ⟨.ok none,
          .ok (some ⟨[⟨⟨"tid", "T"⟩, some ⟨"album", "spotify:album:A"⟩⟩]⟩),
          fun _ => .ok (some ⟨"A", "X"⟩), fun _ => .ok none, fun _ => .ok none⟩)
        (.ok ⟨"t", "Bearer", "s", 60⟩)).result
      = .ok (some ⟨"tid", "T"⟩, some ⟨"A", "X"⟩)
    ∧ (Except.ok (some (⟨"tid", "T"⟩ : Track), some (⟨"A", "X"⟩ : Contextable))
        : Except OpErr (Option Track × Option Contextable))
      ≠ .ok (some ⟨"tid", "T"⟩, none) := by
  constructor
  · norm_num [get_playback_data, with_token_refresh, get_playback_data_core,
      get_user_spotify_client, resolve_playback, commonGet, chooseStatus,
      chooseFromRecent, get_context_details, uriId]
  · simp

/-- Witness for the amended C3 at a concrete environment. -/
theorem C3_recently_played_fallback_witness :
    (get_playback_data (some ⟨"acc", "ref", 1⟩) 0
        (fun _ => ⟨.ok none, .ok (some ⟨[⟨⟨"rid", "R"⟩, none⟩]⟩),
          fun _ => .ok none, fun _ => .ok none, fun _ => .ok none⟩)
        (.ok ⟨"t", "Bearer", "s", 60⟩)).result = .ok (some ⟨"rid", "R"⟩, none) :=
  C3_recently_played_fallback ⟨"acc", "ref", 1⟩ 0
    (fun _ => ⟨.ok none, .ok (some ⟨[⟨⟨"rid", "R"⟩, none⟩]⟩),
      fun _ => .ok none, fun _ => .ok none, fun _ => .ok none⟩)
    (.ok ⟨"t", "Bearer", "s", 60⟩) ⟨"rid", "R"⟩ (by norm_num) (Or.inl rfl) rfl

/-- Claim C5: for a user with a valid credential, when currently-playing
yields a track, the resolution outcome does not depend on the
recently-played outcome at all (so a recently-played failure can never
propagate), and any returned pair carries exactly that track. -/
theorem C5_currently_playing_priority (u : User) (now : ℚ) (env : SpotifyEnv)
    (s : CurrentlyPlayingResponse) (t : Track)
    (hv : now < u.spotify_expires_at)
    (hc : env.currently_playing = .ok (some s))
    (ht : s.track = some t) :
    (∀ rec1 rec2 : Except SpotifyErr (Option RecentlyPlayedResponse),
      get_playback_data_core (some u) now { env with recently_played := rec1 }
        = get_playback_data_core (some u) now { env with recently_played := rec2 })
    ∧ (∀ res, get_playback_data_core (some u) now env = .ok res → res.1 = some t) := by
  have hval : ¬ (u.spotify_expires_at ≤ now) := not_le.mpr hv
  constructor
  · intro rec1 rec2
    simp [get_playback_data_core, get_user_spotify_client, resolve_playback,
      commonGet, chooseStatus, get_context_details, hc, ht, hval]
  · intro res hres
    simp only [get_playback_data_core, get_user_spotify_client, resolve_playback,
      commonGet, chooseStatus, hc, ht, if_neg hval] at hres
    rcases hctx : s.context with _ | c <;> rw [hctx] at hres <;> dsimp only at hres
    · simp only [Except.ok.injEq] at hres
      rw [← hres]
    · rcases hfetch : (get_context_details
          ⟨u.spotify_access_token, u.spotify_refresh_token, u.spotify_expires_at⟩
          now env c).1 with e | d <;> rw [hfetch] at hres <;> dsimp only at hres
      · simp at hres
      · simp only [Except.ok.injEq] at hres
        rw [← hres]

/-- Witness for C5: two environments differing only in the recently-played
outcome (one an API failure) resolve identically. -/
theorem C5_currently_playing_priority_witness :
    get_playback_data_core (some ⟨"acc", "ref", 100⟩) 0
        { wEnv with recently_played := .error (.apiError "boom" (some 500)) }
      = get_playback_data_core (some ⟨"acc", "ref", 100⟩) 0
        { wEnv with recently_played := .ok none } :=
  (C5_currently_playing_priority ⟨"acc", "ref", 100⟩ 0 wEnv wStatus wTrack
    (by norm_num) rfl rfl).1 (.error (.apiError "boom" (some 500))) (.ok none)

/-- Claim C8: `get_context_details` fetches the album for type "album",
the artist for "artist", the playlist for "playlist"; performs no fetch and
returns absent without error for "collection"; returns absent for any other
type; and in the album scenario where the playing track `t` carries context
`{type: album, id: A}` and the album fetch returns `X`, the resolver's
result is `(t, X)`. -/
theorem C8_context_dispatch :
    (∀ (client : SpotifyClientState) (now : ℚ) (env : SpotifyEnv) (ctx : Context),
      now < client.expires_at → ctx.type = "album" →
      get_context_details client now env ctx
        = (env.albums (uriId ctx.uri), [.album (uriId ctx.uri)]))
    ∧ (∀ (client : SpotifyClientState) (now : ℚ) (env : SpotifyEnv) (ctx : Context),
      now < client.expires_at → ctx.type = "artist" →
      get_context_details client now env ctx
        = (env.artists (uriId ctx.uri), [.artist (uriId ctx.uri)]))
    ∧ (∀ (client : SpotifyClientState) (now : ℚ) (env : SpotifyEnv) (ctx : Context),
      now < client.expires_at → ctx.type = "playlist" →
      get_context_details client now env ctx
        = (env.playlists (uriId ctx.uri), [.playlist (uriId ctx.uri)]))
    ∧ (∀ (client : SpotifyClientState) (now : ℚ) (env : SpotifyEnv) (ctx : Context),
      ctx.type = "collection" →
      get_context_details client now env ctx = (.ok none, []))
    ∧ (∀ (client : SpotifyClientState) (now : ℚ) (env : SpotifyEnv) (ctx : Context),
      ctx.type ≠ "album" → ctx.type ≠ "artist" → ctx.type ≠ "playlist" →
      ctx.type ≠ "collection" →
      get_context_details client now env ctx = (.ok none, []))
    ∧ (∀ (u : User) (now : ℚ) (envs : Nat → SpotifyEnv)
        (refreshResp : Except SpotifyErr RefreshTokenResponse)
        (s : CurrentlyPlayingResponse) (t : Track) (A : String) (X : Contextable),
      now < u.spotify_expires_at →
      (envs 0).currently_playing = .ok (some s) →
      s.track = some t →
      s.context = some ⟨"album", A⟩ →
      (envs 0).albums (uriId A) = .ok (some X) →
      (get_playback_data (some u) now envs refreshResp).result = .ok (some t, some X)) := by
  refine ⟨?_, ?_, ?_, ?_, ?_, ?_⟩
  · intro client now env ctx hv h
    have hval : ¬ (client.expires_at ≤ now) := not_le.mpr hv
    simp [get_context_details, commonGet, h, hval]
  · intro client now env ctx hv h
    have hval : ¬ (client.expires_at ≤ now) := not_le.mpr hv
    simp [get_context_details, commonGet, h, hval]
  · intro client now env ctx hv h
    have hval : ¬ (client.expires_at ≤ now) := not_le.mpr hv
    simp [get_context_details, commonGet, h, hval]
  · intro client now env ctx h
    simp [get_context_details, h]
  · intro client now env ctx h1 h2 h3 h4
    simp [get_context_details, h1, h2, h3, h4]
  · intro u now envs refreshResp s t A X hv hc ht hctx hA
    have hval : ¬ (u.spotify_expires_at ≤ now) := not_le.mpr hv
    have hcore : get_playback_data_core (some u) now (envs 0) = .ok (some t, some X) := by
      simp [get_playback_data_core, get_user_spotify_client, resolve_playback,
        commonGet, chooseStatus, get_context_details, hc, ht, hctx, hA, hval]
    simp [get_playback_data, with_token_refresh, hcore]

/-- Witness for C8: the "collection" branch performs no fetch and returns
absent at a concrete context. -/
theorem C8_context_dispatch_witness :
    get_context_details ⟨"acc", "ref", 1⟩ 0 wEnv
        ⟨"collection", "spotify:user:me:collection"⟩ = (.ok none, []) :=
  C8_context_dispatch.2.2.2.1 ⟨"acc", "ref", 1⟩ 0 wEnv
    ⟨"collection", "spotify:user:me:collection"⟩ rfl

/-- Non-claim helper: with a stored row, the playback core never raises
`UserNotLoggedInError`. -/
theorem playback_core_some_ne (u : User) (now : ℚ) (env : SpotifyEnv) :
    get_playback_data_core (some u) now env ≠ .error .userNotLoggedIn := by
  unfold get_playback_data_core get_user_spotify_client
  dsimp only
  cases h : resolve_playback
      ⟨u.spotify_access_token, u.spotify_refresh_token, u.spotify_expires_at⟩ now env with
  | ok v => simp
  | error e => simp

/-- Non-claim helper: with a stored row, the queue core never raises
`UserNotLoggedInError`. -/
theorem queue_core_some_ne (u : User) (now : ℚ) (net : Except SpotifyErr Bool) :
    add_track_to_queue_core (some u) now net ≠ .error .userNotLoggedIn := by
  unfold add_track_to_queue_core get_user_spotify_client
  dsimp only
  by_cases hv : u.spotify_expires_at ≤ now
  · simp [hv]
  · cases net with
    | ok b => simp [hv]
    | error e => simp [hv]

/-- Non-claim helper: the refresh procedure never deletes a stored row. -/
theorem refresh_preserves_some (u : User)
    (refreshResp : Except SpotifyErr RefreshTokenResponse) (now : ℚ) :
    ∃ u2, (refresh_user_spotify_token (some u) refreshResp now).2 = some u2 := by
  cases refreshResp with
  | ok r => exact ⟨_, rfl⟩
  | error e => cases e <;> exact ⟨_, rfl⟩

/-- Non-claim helper: through the wrapper, an operation whose per-attempt
outcome is never `UserNotLoggedInError` on a stored row surfaces
`UserNotLoggedInError` exactly when no row is stored. -/
theorem wrap_not_logged_in_iff {T : Type} (op : Nat → Option User → Except OpErr T)
    (user : Option User) (refreshResp : Except SpotifyErr RefreshTokenResponse)
    (now : ℚ)
    (hop : ∀ i (u : User), op i (some u) ≠ .error .userNotLoggedIn)
    (hnone : op 0 none = .error .userNotLoggedIn) :
    (with_token_refresh op user refreshResp now).result = .error .userNotLoggedIn
      ↔ user = none := by
  constructor
  · intro h
    cases user with
    | none => rfl
    | some u =>
      exfalso
      revert h
      unfold with_token_refresh
      cases h0 : op 0 (some u) with
      | ok v => simp
      | error e =>
        by_cases he : e = .spotify .tokenExpired
        · subst he
          simp only [if_pos rfl]
          obtain ⟨u3, hu3⟩ := refresh_preserves_some u refreshResp now
          rcases h3 : refresh_user_spotify_token (some u) refreshResp now with ⟨r, u2⟩
          rw [h3] at hu3
          dsimp only at hu3
          subst hu3
          cases r with
          | ok x => simpa using hop 1 u3
          | error e2 => simp
        · simp only [if_neg he]
          intro h
          apply hop 0 u
          rw [h0]
          simpa using h
  · intro h
    subst h
    unfold with_token_refresh
    rw [hnone]
    simp

/-- Claim C9: `UserNotLoggedInError` escapes `get_playback_data` and
`add_track_to_queue` exactly when no user row exists; a row whose tokens
were cleared to empty strings still yields a client (`get_user_spotify_client`
is `none` only for a missing row), and with the expiry stamped at the
clearing instant such a user takes the token-expired path instead. -/
theorem C9_user_not_logged_in :
    (∀ user : Option User, get_user_spotify_client user = none ↔ user = none)
    ∧ (∀ (user : Option User) (now : ℚ) (envs : Nat → SpotifyEnv)
        (refreshResp : Except SpotifyErr RefreshTokenResponse),
      (get_playback_data user now envs refreshResp).result = .error .userNotLoggedIn
        ↔ user = none)
    ∧ (∀ (user : Option User) (now : ℚ) (nets : Nat → Except SpotifyErr Bool)
        (refreshResp : Except SpotifyErr RefreshTokenResponse),
      (add_track_to_queue user now nets refreshResp).result = .error .userNotLoggedIn
        ↔ user = none)
    ∧ (∀ (u : User) (now : ℚ) (env : SpotifyEnv) (net : Except SpotifyErr Bool),
      u.spotify_expires_at ≤ now →
      get_playback_data_core (some u) now env = .error (.spotify .tokenExpired)
        ∧ add_track_to_queue_core (some u) now net = .error (.spotify .tokenExpired)) := by
  refine ⟨?_, ?_, ?_, ?_⟩
  · intro user
    cases user <;> simp [get_user_spotify_client]
  · intro user now envs refreshResp
    exact wrap_not_logged_in_iff _ user refreshResp now
      (fun i u => playback_core_some_ne u now (envs i))
      (by simp [get_playback_data_core, get_user_spotify_client])
  · intro user now nets refreshResp
    exact wrap_not_logged_in_iff _ user refreshResp now
      (fun i u => queue_core_some_ne u now (nets i))
      (by simp [add_track_to_queue_core, get_user_spotify_client])
  · intro u now env net hexp
    constructor
    · simp [get_playback_data_core, get_user_spotify_client, resolve_playback,
        commonGet, hexp]
    · simp [add_track_to_queue_core, get_user_spotify_client, hexp]

/-- Witness for C9: a cleared-credential row (empty tokens, expiry stamped
at the clearing instant) takes the token-expired path. -/
theorem C9_user_not_logged_in_witness :
    get_playback_data_core (some ⟨"", "", 0⟩) 0 wEnv = .error (.spotify .tokenExpired)
    ∧ add_track_to_queue_core (some ⟨"", "", 0⟩) 0 (.ok true)
      = .error (.spotify .tokenExpired) :=
  C9_user_not_logged_in.2.2.2 ⟨"", "", 0⟩ 0 wEnv (.ok true) le_rfl

end Spnpbot
